import Mathlib

/-!
Verification development for the native call-shuffle subsystem of a managed
runtime's foreign-function bridge.

The repository file `src/hotspot/cpu/arm/foreign_globals_arm.cpp` contains the
ARM architecture hooks of the subsystem; every hook calls `Unimplemented()`
(the VM abort path) before computing anything.  The architecture-neutral
algorithms (descriptor parsing, spill planning, shuffle planning) live outside
this file; where a claim concerns them, they are modelled from the design
specification and marked as such in their doc comments.
-/

/- ===== Embedding of the source file's stubs ===== -/

/-- Reason an execution aborted.  `Unimplemented()` from `utilities/debug.hpp`
unconditionally reaches the VM abort path (it never returns). -/
inductive AbortReason
  | unimplemented
deriving Repr, DecidableEq

/-- Result of running VM code that may hit an abort path: either the abort was
reached, or the code returned a value normally. -/
abbrev Exec (α : Type) := Except AbortReason α

/-- The `Unimplemented()` call: aborts execution unconditionally. -/
def Unimplemented : Exec Unit := Except.error AbortReason.unimplemented

/-- `VMReg`, modelled abstractly: either the distinguished invalid register
value (`VMRegImpl::Bad()`) or a concrete register index.  The header defining
it (`code/vmreg.hpp`) is outside the repository slice. -/
inductive VMReg
  | Bad
  | Reg (idx : Nat)
deriving Repr, DecidableEq

/-- `VMRegImpl::Bad()`: the distinguished invalid `VMReg` value. -/
def VMRegImpl.Bad : VMReg := VMReg.Bad

/-- `jobject`: an opaque JNI handle; its structure is never inspected here. -/
abbrev jobject := Nat

/-- `MacroAssembler*`: opaque to this file (the stubs never touch it; the class
is only forward-declared in the source). -/
abbrev MacroAssembler := Unit

/- ===== Storage location model (spec §3) ===== -/

/-- A value's home: register class + index, or stack offset, with a width in
bytes.  Modelled from the spec: `StorageLocation` of the data model (§3); the
concrete C++ type is outside the repository slice. -/
inductive StorageLocation
  | GeneralRegister (index : Nat) (width : Nat)
  | FloatRegister (index : Nat) (width : Nat)
  | VectorRegister (index : Nat) (width : Nat)
  | StackSlot (offset : Nat) (width : Nat)
deriving Repr, DecidableEq

/-- Width in bytes of the value held at a storage location. -/
def StorageLocation.width : StorageLocation → Nat
  | .GeneralRegister _ w => w
  | .FloatRegister _ w => w
  | .VectorRegister _ w => w
  | .StackSlot _ w => w

/-- Whether a location is a stack slot (as opposed to register-resident). -/
def StorageLocation.isStack : StorageLocation → Bool
  | .StackSlot _ _ => true
  | _ => false

/-- ABI descriptor (spec §3): ordered argument locations, optional return
location, volatile registers, stack alignment.  Modelled from the spec: the
concrete C++ `ABIDescriptor` (from `prims/foreign_globals.hpp`) is outside the
repository slice. -/
structure ABIDescriptor where
  argument_locations : List StorageLocation
  return_location : Option StorageLocation
  volatile_registers : List Nat
  stack_alignment : Nat
deriving Repr, DecidableEq

/- The six functions of `foreign_globals_arm.cpp`.  Each body is translated
directly: first the `Unimplemented()` call, then (where present) the return
statement, which is dead code. -/

/-- `ForeignGlobals::parse_abi_descriptor(jobject)`: calls `Unimplemented()`,
then (dead code) returns a value-initialized descriptor `{}`. -/
def ForeignGlobals.parse_abi_descriptor (jabi : jobject) : Exec ABIDescriptor := do
  Unimplemented
  return ⟨[], none, [], 0⟩

/-- The (dead) return expression of `ForeignGlobals::vmstorage_to_vmreg`:
`VMRegImpl::Bad()` for every `(type, index)` pair. -/
def ForeignGlobals.vmstorage_to_vmreg_ret (type index : Int) : VMReg :=
  VMRegImpl.Bad

/-- `ForeignGlobals::vmstorage_to_vmreg(int, int)`: calls `Unimplemented()`,
then (dead code) returns `VMRegImpl::Bad()`. -/
def ForeignGlobals.vmstorage_to_vmreg (type index : Int) : Exec VMReg := do
  Unimplemented
  return ForeignGlobals.vmstorage_to_vmreg_ret type index

/-- The (dead) return expression of `RegSpiller::pd_reg_size`: the constant
`-1`, independent of the register. -/
def RegSpiller.pd_reg_size_ret (reg : VMReg) : Int := -1

/-- `RegSpiller::pd_reg_size(VMReg)`: calls `Unimplemented()`, then (dead
code) returns `-1`. -/
def RegSpiller.pd_reg_size (reg : VMReg) : Exec Int := do
  Unimplemented
  return RegSpiller.pd_reg_size_ret reg

/-- `RegSpiller::pd_store_reg(MacroAssembler*, int, VMReg)`: body is a single
`Unimplemented()` call. -/
def RegSpiller.pd_store_reg (masm : MacroAssembler) (offset : Int) (reg : VMReg) : Exec Unit :=
  Unimplemented

/-- `RegSpiller::pd_load_reg(MacroAssembler*, int, VMReg)`: body is a single
`Unimplemented()` call. -/
def RegSpiller.pd_load_reg (masm : MacroAssembler) (offset : Int) (reg : VMReg) : Exec Unit :=
  Unimplemented

/-- `ArgumentShuffle::pd_generate(MacroAssembler*, VMReg, int, int) const`:
body is a single `Unimplemented()` call (the const receiver is never read). -/
def ArgumentShuffle.pd_generate (masm : MacroAssembler) (tmp : VMReg)
    (in_stk_bias out_stk_bias : Int) : Exec Unit :=
  Unimplemented

/- ===== Descriptor parser (spec §4.1), modelled from the spec ===== -/

/-- Abstract type tags of a foreign signature (spec §4.1 input vocabulary). -/
inductive TypeTag
  | int32
  | int64
  | float32
  | float64
  | pointer
  | structByValue (size : Nat) (align : Nat)
deriving Repr, DecidableEq

/-- Register classes a value may be assigned to by the parser. -/
inductive RegClass
  | General
  | Float
deriving Repr, DecidableEq

/-- Architecture-supplied description of how one type tag is passed: the
register class its value lands in, its width and alignment in bytes, and how
many general/float argument registers passing it in registers consumes.
Modelled from the spec: the per-type assignment rule is architecture data,
not part of the neutral algorithm (spec §1, §4.1, §6). -/
structure TypeDesc where
  cls : RegClass
  width : Nat
  align : Nat
  gpCost : Nat
  fpCost : Nat
deriving Repr, DecidableEq

/-- A calling convention's architecture tables (spec §6 configuration
surface): argument-register counts per class, stack alignment, maximum
supported alignment, volatile registers, and the per-type assignment rule
(`none` for a type tag the architecture does not support). -/
structure ArchConfig where
  gpRegs : Nat
  fpRegs : Nat
  stackAlignment : Nat
  maxAlignment : Nat
  volatileRegs : List Nat
  typeDesc : TypeTag → Option TypeDesc

/-- Errors of the descriptor parser (spec §4.1 failure modes, §7). -/
inductive DescriptorError
  | UnsupportedType
  | InconsistentAggregate
deriving Repr, DecidableEq

/-- Round `n` up to the next multiple of `a` (identity for `a = 0`). -/
def alignUp (n a : Nat) : Nat := if a = 0 then n else (n + a - 1) / a * a

/-- Parser walk state: registers consumed per class and the stack cursor. -/
structure AssignState where
  gpUsed : Nat
  fpUsed : Nat
  stackOff : Nat
deriving Repr, DecidableEq

/-- Assign one value of description `d`: a register of its class while enough
registers of the classes it consumes remain unconsumed, otherwise the next
suitably aligned stack slot (padding to the type's alignment, spec §4.1 edge
case); advance the consumed-register counters or the stack cursor. -/
def assignOne (cfg : ArchConfig) (st : AssignState) (d : TypeDesc) :
    StorageLocation × AssignState :=
  if st.gpUsed + d.gpCost ≤ cfg.gpRegs ∧ st.fpUsed + d.fpCost ≤ cfg.fpRegs then
    (match d.cls with
      | .General => StorageLocation.GeneralRegister st.gpUsed d.width
      | .Float => StorageLocation.FloatRegister st.fpUsed d.width,
     { st with gpUsed := st.gpUsed + d.gpCost, fpUsed := st.fpUsed + d.fpCost })
  else
    (StorageLocation.StackSlot (alignUp st.stackOff d.align) d.width,
     { st with stackOff := alignUp st.stackOff d.align + d.width })

/-- Walk the type tags in order (spec §4.1 algorithm), emitting one storage
location per tag; fail on an unsupported tag or on an alignment beyond the
architecture's maximum. -/
def assignArgs (cfg : ArchConfig) : AssignState → List TypeTag →
    Except DescriptorError (List StorageLocation)
  | _, [] => Except.ok []
  | st, t :: ts =>
    match cfg.typeDesc t with
    | none => Except.error DescriptorError.UnsupportedType
    | some d =>
      if cfg.maxAlignment < d.align then
        Except.error DescriptorError.InconsistentAggregate
      else
        match assignOne cfg st d with
        | (loc, st') =>
          match assignArgs cfg st' ts with
          | Except.error e => Except.error e
          | Except.ok locs => Except.ok (loc :: locs)

/-- Storage location of the return value: the first register of the result
type's class (absent for a void return). -/
def returnLoc (cfg : ArchConfig) : Option TypeTag →
    Except DescriptorError (Option StorageLocation)
  | none => Except.ok none
  | some t =>
    match cfg.typeDesc t with
    | none => Except.error DescriptorError.UnsupportedType
    | some d =>
      Except.ok (some (match d.cls with
        | .General => StorageLocation.GeneralRegister 0 d.width
        | .Float => StorageLocation.FloatRegister 0 d.width))

/-- `parse(signature, calling_convention)` (spec §4.1): walk the signature's
type tags in order against the convention's architecture tables and build the
immutable ABI descriptor, or fail atomically.  Modelled from the spec: the
neutral descriptor-parsing algorithm is not in the repository slice (the ARM
hook `ForeignGlobals::parse_abi_descriptor` aborts unconditionally). -/
def parse (cfg : ArchConfig) (sig : List TypeTag) (ret : Option TypeTag) :
    Except DescriptorError ABIDescriptor :=
  match assignArgs cfg ⟨0, 0, 0⟩ sig, returnLoc cfg ret with
  | Except.ok locs, Except.ok r =>
      Except.ok ⟨locs, r, cfg.volatileRegs, cfg.stackAlignment⟩
  | Except.error e, _ => Except.error e
  | _, Except.error e => Except.error e

/-- Modelled from the spec: the per-type rule of the §8 scenario architecture.
The scenario stipulates that after `(int32, float64)` its two general
registers are exhausted (the third `int32` goes to the stack), so on this
architecture a `float64` argument consumes one general argument register
alongside its float register (as in conventions that tie argument positions
to slots of both register files). -/
def scenarioDesc : TypeTag → Option TypeDesc
  | .int32 => some ⟨.General, 4, 4, 1, 0⟩
  | .int64 => some ⟨.General, 8, 8, 1, 0⟩
  | .float32 => some ⟨.Float, 4, 4, 1, 1⟩
  | .float64 => some ⟨.Float, 8, 8, 1, 1⟩
  | .pointer => some ⟨.General, 8, 8, 1, 0⟩
  | .structByValue _ _ => none

/-- The §8 scenario calling convention: 2 general argument registers, 1 float
argument register of sufficient width. -/
def scenarioConfig : ArchConfig :=
  ⟨2, 1, 8, 16, [], scenarioDesc⟩

/- ===== Register spiller (spec §4.2), modelled from the spec ===== -/

/-- Errors of the register spiller (spec §4.2 failure modes, §7):
`DuplicateSpill` when a spill is requested twice for one location,
`StackSlotSpill` when a stack slot (not register-resident) is asked to be
spilled. -/
inductive SpillError
  | DuplicateSpill
  | StackSlotSpill
deriving Repr, DecidableEq

/-- Scratch-area slot size of one spilled location: its width rounded up to
its natural alignment (spec §4.2). -/
def slotSize (l : StorageLocation) : Nat := alignUp l.width l.width

/-- A spill plan (spec §3): each live register-resident location paired with
its assigned byte offset, plus the total scratch-area size. -/
structure SpillPlan where
  entries : List (StorageLocation × Nat)
  size : Nat
deriving Repr, DecidableEq

/-- Offset-assignment walk of the spill planner: entries are assigned at the
running offset in iteration order; fails on a stack slot or on a location
already planned. -/
def spillGo : List StorageLocation → Nat → List StorageLocation →
    Except SpillError (List (StorageLocation × Nat) × Nat)
  | _, off, [] => Except.ok ([], off)
  | seen, off, l :: ls =>
    if l.isStack then Except.error SpillError.StackSlotSpill
    else if l ∈ seen then Except.error SpillError.DuplicateSpill
    else
      match spillGo (l :: seen) (off + slotSize l) ls with
      | Except.error e => Except.error e
      | Except.ok (es, sz) => Except.ok ((l, off) :: es, sz)

/-- `plan_spill(locations)` (spec §4.2): assign each register-resident
location a byte offset into a scratch area sized to the sum of each
location's width rounded up to its natural alignment, in the stable iteration
order of the input.  Modelled from the spec: the neutral spill-planning
algorithm is not in the repository slice (the ARM hooks of `RegSpiller`
abort unconditionally). -/
def plan_spill (locs : List StorageLocation) : Except SpillError SpillPlan :=
  match spillGo [] 0 locs with
  | Except.error e => Except.error e
  | Except.ok (es, sz) => Except.ok ⟨es, sz⟩

/- ===== Argument shuffle planner (spec §4.3), modelled from the spec ===== -/

/-- A primitive move operation of a move plan (spec §3 `MovePlan`). -/
structure Move where
  src : StorageLocation
  dst : StorageLocation
deriving Repr, DecidableEq

/-- A move plan: an ordered sequence of primitive moves (spec §3). -/
abbrev MovePlan := List Move

/-- Errors of the shuffle planner (spec §4.3 failure modes, §7). -/
inductive ShuffleError
  | ClobberedScratch
  | WidthMismatch
deriving Repr, DecidableEq

/-- Whether `m` may be emitted now: its destination is not the source of any
other still-pending move (no still-needed value would be overwritten). -/
def safeIn (m : Move) (others : List Move) : Bool :=
  others.all fun n => decide (n.src ≠ m.dst)

/-- Extract the first pending move that is safe to emit, keeping the order of
the rest (`acc` holds the already-inspected prefix, in order). -/
def extractSafe : List Move → List Move → Option (Move × List Move)
  | _, [] => none
  | acc, m :: rest =>
    if safeIn m (acc ++ rest) then some (m, acc ++ rest)
    else extractSafe (acc ++ [m]) rest

/-- Topological move sequencing with cycle breaking (spec §4.3 algorithm):
emit moves with no hazard first; when only cyclic groups remain, break a
cycle by saving the first pending move's source to the scratch register,
performing the rest of the cycle, then restoring from the scratch register
into the final slot.  `fuel` bounds the iteration count (two per pending
move plus one suffices: a cycle break is followed by a safe emission). -/
def seqMoves (scratch : StorageLocation) : Nat → List Move → MovePlan
  | 0, _ => []
  | _ + 1, [] => []
  | fuel + 1, pending =>
    match extractSafe [] pending with
    | some (m, rest) => m :: seqMoves scratch fuel rest
    | none =>
      match pending with
      | [] => []
      | m :: rest =>
        Move.mk m.src scratch ::
          seqMoves scratch fuel (Move.mk scratch m.dst :: rest)

/-- The pending pair list of a shuffle request: corresponding entries of
`sources` and `destinations`, with self-moves (source equal to destination)
elided (spec §4.3). -/
def shufflePairs (sources destinations : List StorageLocation) : MovePlan :=
  ((sources.zip destinations).filter fun p => decide (p.1 ≠ p.2)).map
    fun p => Move.mk p.1 p.2

/-- `plan_shuffle(sources, destinations, scratch_register)` (spec §4.3):
fail atomically when the scratch register is among the destinations (it
would be clobbered before use) or when a paired source/destination disagree
in width; otherwise sequence the non-self moves hazard-free, breaking cycles
through the scratch register.  Modelled from the spec: the neutral
shuffle-planning algorithm is not in the repository slice (the ARM hook
`ArgumentShuffle::pd_generate` aborts unconditionally). -/
def plan_shuffle (sources destinations : List StorageLocation)
    (scratch : StorageLocation) : Except ShuffleError MovePlan :=
  if scratch ∈ destinations then Except.error ShuffleError.ClobberedScratch
  else if (shufflePairs sources destinations).any
      (fun m => decide (m.src.width ≠ m.dst.width)) then
    Except.error ShuffleError.WidthMismatch
  else
    Except.ok (seqMoves scratch (2 * (shufflePairs sources destinations).length + 1)
      (shufflePairs sources destinations))

/- ===== Theorems about the stubs (C1, C10) ===== -/

/-- C1: every one of the six operations of this file, on every input, reaches
the `Unimplemented()` abort path before computing any result: no invocation
returns normally (the result is never `.ok`), so the code after the
`Unimplemented()` call is dead. -/
theorem stubs_always_abort :
    (∀ jabi, ForeignGlobals.parse_abi_descriptor jabi
        = Except.error AbortReason.unimplemented)
    ∧ (∀ type index, ForeignGlobals.vmstorage_to_vmreg type index
        = Except.error AbortReason.unimplemented)
    ∧ (∀ reg, RegSpiller.pd_reg_size reg
        = Except.error AbortReason.unimplemented)
    ∧ (∀ masm offset reg, RegSpiller.pd_store_reg masm offset reg
        = Except.error AbortReason.unimplemented)
    ∧ (∀ masm offset reg, RegSpiller.pd_load_reg masm offset reg
        = Except.error AbortReason.unimplemented)
    ∧ (∀ masm tmp ib ob, ArgumentShuffle.pd_generate masm tmp ib ob
        = Except.error AbortReason.unimplemented) :=
  ⟨fun _ => rfl, fun _ _ => rfl, fun _ => rfl,
   fun _ _ _ => rfl, fun _ _ _ => rfl, fun _ _ _ _ => rfl⟩

/-- C10: `RegSpiller::pd_reg_size`'s return expression is the constant `-1`
for every register: a negative value, hence distinct from every valid
(non-negative) spill size; and `ForeignGlobals::vmstorage_to_vmreg`'s return
expression is `VMRegImpl::Bad()` for every `(type, index)` pair. -/
theorem stub_return_values :
    (∀ reg, RegSpiller.pd_reg_size_ret reg = -1)
    ∧ (∀ reg, RegSpiller.pd_reg_size_ret reg < 0)
    ∧ (∀ reg (n : Nat), RegSpiller.pd_reg_size_ret reg ≠ (n : Int))
    ∧ (∀ type index, ForeignGlobals.vmstorage_to_vmreg_ret type index
        = VMRegImpl.Bad) :=
  ⟨fun _ => rfl,
   fun _ => show (-1 : Int) < 0 by decide,
   fun _ n h => by rw [RegSpiller.pd_reg_size_ret] at h; omega,
   fun _ _ => rfl⟩

/-- Concrete instance of C10's theorem at register index 0 and size 8. -/
theorem stub_return_values_witness :
    RegSpiller.pd_reg_size_ret (VMReg.Reg 0) ≠ ((8 : Nat) : Int) :=
  stub_return_values.2.2.1 (VMReg.Reg 0) 8

/- ===== Theorems about the descriptor parser (C2, C3, C9) ===== -/

/-- Helper: a successful register-assignment walk emits exactly one storage
location per type tag, from any starting state. -/
theorem assignArgs_length (cfg : ArchConfig) (sig : List TypeTag) :
    ∀ st locs, assignArgs cfg st sig = Except.ok locs →
      locs.length = sig.length := by
  induction sig with
  | nil =>
    intro st locs h
    simp only [assignArgs] at h
    cases h
    rfl
  | cons t ts ih =>
    intro st locs h
    simp only [assignArgs] at h
    split at h
    · cases h
    · split at h
      · cases h
      · split at h
        · cases h
        · cases h
          rename_i locs0 hrec
          simp [ih _ locs0 hrec]

/-- C2: `parse` is a deterministic, side-effect-free function of its inputs
and the fixed architecture tables: two invocations on the same signature and
calling convention yield bit-identical ABI descriptors. -/
theorem parse_deterministic (cfg1 cfg2 : ArchConfig) (sig1 sig2 : List TypeTag)
    (ret1 ret2 : Option TypeTag)
    (hc : cfg1 = cfg2) (hs : sig1 = sig2) (hr : ret1 = ret2) :
    parse cfg1 sig1 ret1 = parse cfg2 sig2 ret2 := by
  rw [hc, hs, hr]

/-- Concrete instance of C2's theorem at the scenario signature. -/
theorem parse_deterministic_witness :
    parse scenarioConfig [TypeTag.int32, TypeTag.float64, TypeTag.int32] none
      = parse scenarioConfig [TypeTag.int32, TypeTag.float64, TypeTag.int32] none :=
  parse_deterministic scenarioConfig scenarioConfig
    [TypeTag.int32, TypeTag.float64, TypeTag.int32]
    [TypeTag.int32, TypeTag.float64, TypeTag.int32] none none rfl rfl rfl

/-- C3: the descriptor produced by `parse` has exactly one entry in
`argument_locations` per formal parameter of the signature (in declaration
order, by construction of the walk); in particular a zero-argument signature
yields an empty `argument_locations`. -/
theorem parse_argument_locations_complete (cfg : ArchConfig)
    (sig : List TypeTag) (ret : Option TypeTag) (d : ABIDescriptor)
    (h : parse cfg sig ret = Except.ok d) :
    d.argument_locations.length = sig.length
      ∧ (sig = [] → d.argument_locations = []) := by
  unfold parse at h
  split at h
  · cases h
    rename_i locs r hargs hret
    refine ⟨assignArgs_length cfg sig _ locs hargs, ?_⟩
    intro hnil
    subst hnil
    simpa using assignArgs_length cfg [] _ locs hargs
  · cases h
  · cases h

/-- Concrete instance of C3's theorem on a one-argument signature. -/
theorem parse_argument_locations_complete_witness :
    (ABIDescriptor.mk [StorageLocation.GeneralRegister 0 4] none [] 8).argument_locations.length
        = [TypeTag.int32].length
      ∧ ([TypeTag.int32] = ([] : List TypeTag) →
          (ABIDescriptor.mk [StorageLocation.GeneralRegister 0 4] none [] 8).argument_locations = []) :=
  parse_argument_locations_complete scenarioConfig [TypeTag.int32] none
    ⟨[StorageLocation.GeneralRegister 0 4], none, [], 8⟩ rfl

/-- C9: on the §8 scenario architecture (2 general argument registers, 1
float argument register of sufficient width), `parse` on the signature
`(int32, float64, int32)` yields argument locations
`[GeneralRegister 0, FloatRegister 0, StackSlot 0]`: the third `int32` goes
to the stack because the general registers are exhausted. -/
theorem parse_scenario :
    parse scenarioConfig [TypeTag.int32, TypeTag.float64, TypeTag.int32] none
      = Except.ok ⟨[StorageLocation.GeneralRegister 0 4,
                    StorageLocation.FloatRegister 0 8,
                    StorageLocation.StackSlot 0 4], none, [], 8⟩ := by
  rfl


/- ===== Theorems about the register spiller (C6, C7) ===== -/

/-- Helper: a location of positive width occupies a positive slot. -/
theorem slotSize_pos (l : StorageLocation) (h : 0 < l.width) :
    0 < slotSize l := by
  unfold slotSize alignUp
  have hne : l.width ≠ 0 := Nat.pos_iff_ne_zero.mp h
  simp only [hne, if_false]
  have h1 : 1 ≤ (l.width + l.width - 1) / l.width :=
    (Nat.one_le_div_iff h).mpr (by omega)
  calc 0 < 1 * l.width := by omega
    _ ≤ (l.width + l.width - 1) / l.width * l.width :=
      Nat.mul_le_mul_right l.width h1

/-- Helper: unfolding one successful step of the spill walk. -/
theorem spillGo_ok_cons (l : StorageLocation) (ls seen : List StorageLocation)
    (off : Nat) (hs : l.isStack = false) (hm : l ∉ seen) :
    (∃ r, spillGo seen off (l :: ls) = Except.ok r)
      ↔ (∃ r, spillGo (l :: seen) (off + slotSize l) ls = Except.ok r) := by
  simp only [spillGo, hs, Bool.false_eq_true, if_false, hm, ite_false]
  cases hrec : spillGo (l :: seen) (off + slotSize l) ls with
  | error e => simp
  | ok r =>
    obtain ⟨es, sz⟩ := r
    simp

/-- Helper: the spill walk succeeds exactly on duplicate-free,
register-resident inputs that avoid the already-planned locations. -/
theorem spillGo_ok_iff (ls : List StorageLocation) :
    ∀ seen off, (∃ r, spillGo seen off ls = Except.ok r)
      ↔ (ls.Nodup ∧ (∀ l ∈ ls, l.isStack = false) ∧ ∀ l ∈ ls, l ∉ seen) := by
  induction ls with
  | nil => intro seen off; simp [spillGo]
  | cons l ls ih =>
    intro seen off
    cases hstack : l.isStack with
    | true =>
      constructor
      · intro hr
        obtain ⟨r, hr⟩ := hr
        simp [spillGo, hstack] at hr
      · intro hR
        have h1 := hR.2.1 l (List.mem_cons_self l ls)
        rw [hstack] at h1
        cases h1
    | false =>
      by_cases hm : l ∈ seen
      · constructor
        · intro hr
          obtain ⟨r, hr⟩ := hr
          simp [spillGo, hstack, hm] at hr
        · intro hR
          exact absurd hm (hR.2.2 l (List.mem_cons_self l ls))
      · rw [spillGo_ok_cons l ls seen off hstack hm,
            ih (l :: seen) (off + slotSize l)]
        constructor
        · intro hL
          obtain ⟨hnd, hstk, hseen⟩ := hL
          refine ⟨?_, ?_, ?_⟩
          · exact List.nodup_cons.mpr
              ⟨fun hmem => hseen l hmem (List.mem_cons_self l seen), hnd⟩
          · intro x hx
            cases List.mem_cons.mp hx with
            | inl hx => rw [hx]; exact hstack
            | inr hx => exact hstk x hx
          · intro x hx
            cases List.mem_cons.mp hx with
            | inl hx => rw [hx]; exact hm
            | inr hx => exact fun hc => hseen x hx (List.mem_cons_of_mem l hc)
        · intro hR
          obtain ⟨hnd, hstk, hseen⟩ := hR
          have hnd' := List.nodup_cons.mp hnd
          refine ⟨hnd'.2, ?_, ?_⟩
          · intro x hx
            exact hstk x (List.mem_cons_of_mem l hx)
          · intro x hx
            simp only [List.mem_cons, not_or]
            refine ⟨?_, hseen x (List.mem_cons_of_mem l hx)⟩
            intro hxl
            rw [hxl] at hx
            exact hnd'.1 hx

/-- Helper: what a successful spill walk produces: entries in input order,
total size the running offset plus the sum of slot sizes, all offsets at or
above the starting offset, and (for positive widths) strictly increasing
offsets. -/
theorem spillGo_spec (ls : List StorageLocation) :
    ∀ seen off es sz, spillGo seen off ls = Except.ok (es, sz) →
      es.map Prod.fst = ls
      ∧ sz = off + (ls.map slotSize).sum
      ∧ (∀ p ∈ es, off ≤ p.2)
      ∧ ((∀ l ∈ ls, 0 < l.width) → (es.map Prod.snd).Pairwise (· < ·)) := by
  induction ls with
  | nil =>
    intro seen off es sz h
    simp only [spillGo] at h
    cases h
    simp
  | cons l ls ih =>
    intro seen off es sz h
    simp only [spillGo] at h
    split at h
    · cases h
    · split at h
      · cases h
      · cases hrec : spillGo (l :: seen) (off + slotSize l) ls with
        | error e =>
          rw [hrec] at h
          cases h
        | ok r =>
          obtain ⟨es0, sz0⟩ := r
          rw [hrec] at h
          cases h
          obtain ⟨hfst, hsz, hoff, hpw⟩ :=
            ih (l :: seen) (off + slotSize l) _ _ hrec
          refine ⟨by simp [hfst], by simp [hsz]; omega, ?_, ?_⟩
          · intro p hp
            cases List.mem_cons.mp hp with
            | inl hp => rw [hp]
            | inr hp =>
              exact le_trans (Nat.le_add_right off (slotSize l)) (hoff p hp)
          · intro hw
            have hpos : 0 < slotSize l :=
              slotSize_pos l (hw l (List.mem_cons_self l ls))
            have hrest : (es0.map Prod.snd).Pairwise (· < ·) :=
              hpw fun x hx => hw x (List.mem_cons_of_mem l hx)
            simp only [List.map_cons, List.pairwise_cons]
            refine ⟨?_, hrest⟩
            intro y hy
            obtain ⟨p, hp, hpy⟩ := List.mem_map.mp hy
            have := hoff p hp
            omega

/-- C6: a successful `plan_spill` assigns offsets in the stable iteration
order of the input, each register-resident location getting a distinct byte
offset, into a scratch area whose size is the sum of each location's width
rounded up to its natural alignment; identical inputs receive identical
offsets. -/
theorem plan_spill_offsets (locs : List StorageLocation) (pl : SpillPlan)
    (hok : plan_spill locs = Except.ok pl)
    (hw : ∀ l ∈ locs, 0 < l.width) :
    pl.entries.map Prod.fst = locs
    ∧ pl.size = (locs.map slotSize).sum
    ∧ (pl.entries.map Prod.snd).Nodup
    ∧ (∀ pl2, plan_spill locs = Except.ok pl2 → pl2 = pl) := by
  unfold plan_spill at hok
  cases hgo : spillGo [] 0 locs with
  | error e =>
    rw [hgo] at hok
    cases hok
  | ok r =>
    obtain ⟨es, sz⟩ := r
    rw [hgo] at hok
    cases hok
    obtain ⟨hfst, hsz, _, hpw⟩ := spillGo_spec locs [] 0 es sz hgo
    refine ⟨hfst, by simpa using hsz, ?_, ?_⟩
    · exact List.Pairwise.imp (fun h => Nat.ne_of_lt h) (hpw hw)
    · intro pl2 h2
      unfold plan_spill at h2
      rw [hgo] at h2
      cases h2
      rfl

/-- Concrete instance of C6's theorem: registers of widths 8 and 4 get
offsets 0 and 8 in a 12-byte scratch area. -/
theorem plan_spill_offsets_witness :
    (SpillPlan.mk [(StorageLocation.GeneralRegister 0 8, 0),
                   (StorageLocation.FloatRegister 1 4, 8)] 12).entries.map Prod.fst
        = [StorageLocation.GeneralRegister 0 8, StorageLocation.FloatRegister 1 4]
      ∧ (SpillPlan.mk [(StorageLocation.GeneralRegister 0 8, 0),
                   (StorageLocation.FloatRegister 1 4, 8)] 12).size
        = ([StorageLocation.GeneralRegister 0 8,
            StorageLocation.FloatRegister 1 4].map slotSize).sum
      ∧ ((SpillPlan.mk [(StorageLocation.GeneralRegister 0 8, 0),
                   (StorageLocation.FloatRegister 1 4, 8)] 12).entries.map Prod.snd).Nodup
      ∧ (∀ pl2, plan_spill [StorageLocation.GeneralRegister 0 8,
            StorageLocation.FloatRegister 1 4] = Except.ok pl2 →
          pl2 = SpillPlan.mk [(StorageLocation.GeneralRegister 0 8, 0),
                   (StorageLocation.FloatRegister 1 4, 8)] 12) :=
  plan_spill_offsets
    [StorageLocation.GeneralRegister 0 8, StorageLocation.FloatRegister 1 4]
    ⟨[(StorageLocation.GeneralRegister 0 8, 0),
      (StorageLocation.FloatRegister 1 4, 8)], 12⟩
    rfl (by decide)

/-- C7: the spiller signals an error exactly when asked to spill a location
already present in the plan (duplicate) or a stack-slot location; on any
input of pairwise-distinct register-resident locations, spill planning
succeeds. -/
theorem plan_spill_ok_iff (locs : List StorageLocation) :
    (∃ pl, plan_spill locs = Except.ok pl)
      ↔ (locs.Nodup ∧ ∀ l ∈ locs, l.isStack = false) := by
  constructor
  · intro hpl
    obtain ⟨pl, hpl⟩ := hpl
    have hex : ∃ r, spillGo [] 0 locs = Except.ok r := by
      unfold plan_spill at hpl
      cases hrec : spillGo [] 0 locs with
      | error e => rw [hrec] at hpl; cases hpl
      | ok r => exact ⟨r, rfl⟩
    have h3 := (spillGo_ok_iff locs [] 0).mp hex
    exact ⟨h3.1, h3.2.1⟩
  · intro hr
    have hex : ∃ r, spillGo [] 0 locs = Except.ok r :=
      (spillGo_ok_iff locs [] 0).mpr
        ⟨hr.1, hr.2, fun l _ => List.not_mem_nil l⟩
    obtain ⟨⟨es, sz⟩, hrec⟩ := hex
    exact ⟨⟨es, sz⟩, by unfold plan_spill; rw [hrec]⟩

/-- Concrete instance of C7's theorem: a duplicated register is rejected. -/
theorem plan_spill_ok_iff_witness :
    ((∃ pl, plan_spill [StorageLocation.GeneralRegister 0 8,
        StorageLocation.GeneralRegister 0 8] = Except.ok pl)
      ↔ ([StorageLocation.GeneralRegister 0 8,
        StorageLocation.GeneralRegister 0 8].Nodup
          ∧ ∀ l ∈ [StorageLocation.GeneralRegister 0 8,
              StorageLocation.GeneralRegister 0 8], l.isStack = false)) :=
  plan_spill_ok_iff
    [StorageLocation.GeneralRegister 0 8, StorageLocation.GeneralRegister 0 8]

/- ===== Theorems about the shuffle planner (C4, C5, C8) ===== -/

/-- C4: for the two-element cyclic input, sources `[R1, R2]` and destinations
`[R2, R1]`, `plan_shuffle` produces exactly the three-step plan that routes
one value through the scratch register — save R1 to scratch, move R2 to R1,
restore the saved value into R2 — and not a two-step plan that overwrites a
value before it is read. -/
theorem plan_shuffle_swap_cycle :
    plan_shuffle
      [StorageLocation.GeneralRegister 1 8, StorageLocation.GeneralRegister 2 8]
      [StorageLocation.GeneralRegister 2 8, StorageLocation.GeneralRegister 1 8]
      (StorageLocation.GeneralRegister 3 8)
      = Except.ok
          [Move.mk (StorageLocation.GeneralRegister 1 8)
             (StorageLocation.GeneralRegister 3 8),
           Move.mk (StorageLocation.GeneralRegister 2 8)
             (StorageLocation.GeneralRegister 1 8),
           Move.mk (StorageLocation.GeneralRegister 3 8)
             (StorageLocation.GeneralRegister 2 8)] := by
  rfl

/-- C5: a source/destination pair whose source equals its destination
contributes zero moves: the shuffle plan for inputs containing such a pair
is the plan for the same inputs with that pair removed (on inputs where the
call itself is not rejected for a clobbered scratch register). -/
theorem plan_shuffle_self_move_elided (s1 s2 d1 d2 : List StorageLocation)
    (a scratch : StorageLocation) (hlen : s1.length = d1.length)
    (hscr : scratch ∉ d1 ++ a :: d2) :
    plan_shuffle (s1 ++ a :: s2) (d1 ++ a :: d2) scratch
      = plan_shuffle (s1 ++ s2) (d1 ++ d2) scratch := by
  have hscr2 : scratch ∉ d1 ++ d2 := by
    intro hc
    apply hscr
    rcases List.mem_append.mp hc with h | h
    · exact List.mem_append.mpr (Or.inl h)
    · exact List.mem_append.mpr (Or.inr (List.mem_cons_of_mem a h))
  have hpairs : shufflePairs (s1 ++ a :: s2) (d1 ++ a :: d2)
      = shufflePairs (s1 ++ s2) (d1 ++ d2) := by
    unfold shufflePairs
    rw [List.zip_append hlen, List.zip_append hlen]
    simp [List.filter_append, List.filter_cons]
  unfold plan_shuffle
  rw [if_neg hscr, if_neg hscr2, hpairs]

/-- Concrete instance of C5's theorem: the self-pair `R1 → R1` in front of
`R2 → R3` contributes no moves. -/
theorem plan_shuffle_self_move_elided_witness :
    plan_shuffle
      [StorageLocation.GeneralRegister 1 8, StorageLocation.GeneralRegister 2 8]
      [StorageLocation.GeneralRegister 1 8, StorageLocation.GeneralRegister 3 8]
      (StorageLocation.GeneralRegister 5 8)
      = plan_shuffle [StorageLocation.GeneralRegister 2 8]
          [StorageLocation.GeneralRegister 3 8]
          (StorageLocation.GeneralRegister 5 8) :=
  plan_shuffle_self_move_elided [] [StorageLocation.GeneralRegister 2 8]
    [] [StorageLocation.GeneralRegister 3 8]
    (StorageLocation.GeneralRegister 1 8) (StorageLocation.GeneralRegister 5 8)
    rfl (by decide)

/-- C8: whenever the scratch register appears among the destinations,
`plan_shuffle` signals `ClobberedScratch` and fails atomically: the result
is exactly the error, with no partial move plan exposed. -/
theorem plan_shuffle_clobbered_scratch (sources destinations : List StorageLocation)
    (scratch : StorageLocation) (h : scratch ∈ destinations) :
    plan_shuffle sources destinations scratch
      = Except.error ShuffleError.ClobberedScratch := by
  unfold plan_shuffle
  rw [if_pos h]

/-- Concrete instance of C8's theorem: scratch register equal to the only
destination. -/
theorem plan_shuffle_clobbered_scratch_witness :
    plan_shuffle [StorageLocation.GeneralRegister 1 8]
      [StorageLocation.GeneralRegister 2 8]
      (StorageLocation.GeneralRegister 2 8)
      = Except.error ShuffleError.ClobberedScratch :=
  plan_shuffle_clobbered_scratch [StorageLocation.GeneralRegister 1 8]
    [StorageLocation.GeneralRegister 2 8]
    (StorageLocation.GeneralRegister 2 8) (by decide)
